import Mathlib

/-!
Shallow embedding of `src/server_manager.py` (SoundShare server manager).

The manager's observable environment — file system, OS process table,
socket/connection table, spawn results — is made explicit as values, and
every function below is translated from the corresponding Python function
of the source.  Liveness queries are a single snapshot: the oracle answers
identically for repeated queries inside one call, which models the
manager's synchronous, single-threaded execution.
-/

namespace ServerManager

/-- State of one path in the file system as the manager can observe it:
absent, present but unreadable (text reads raise OSError), or readable
text content.  Write and delete permission are assumed granted; the source
only ever catches read-side errors. -/
inductive FileData where
  | absent
  | unreadable
  | readable (content : String)
  deriving DecidableEq

/-- File system: finite map from path strings to file states.  New entries
are consed in front and shadow older ones. -/
structure Fs where
  entries : List (String × FileData)
  deriving DecidableEq

def lookupFd : List (String × FileData) → String → FileData
  | [], _ => .absent
  | (q, d) :: rest, p => if q = p then d else lookupFd rest p

def Fs.get (fs : Fs) (p : String) : FileData := lookupFd fs.entries p

def Fs.set (fs : Fs) (p : String) (d : FileData) : Fs := ⟨(p, d) :: fs.entries⟩

/-- One entry of `psutil.net_connections(kind="inet")`: local-address
truthiness, local port, connection status string, owning pid
(`conn.pid` may be None). -/
structure Conn where
  laddrPresent : Bool
  laddrPort : Int
  status : String
  pid : Option Int
  deriving DecidableEq

/-- The OS oracle for one manager invocation.  Function-valued fields are
per-pid answers of psutil; `netConns = none` means
`psutil.net_connections` raises a `psutil.Error`. -/
structure Env where
  alive : Int → Bool
  dirExists : String → Bool
  onPath : String → Bool
  procAccessDenied : Int → Bool
  descendants : Int → List Int
  childExitsIn3 : Int → Bool
  rootTermRaises : Int → Bool
  rootExitsIn5 : Int → Bool
  netConns : Option (List Conn)
  connectOk : Int → Bool
  statsLine : Int → Option String
  spawnPid : Int
  spawnExitedImmediately : Bool
  fgExitCode : Int
  fgOutput : List String
  logUnlinkFails : Bool

/-- Server definition as produced by `parse_server_entry`. -/
structure ServerConfig where
  key : String
  directory : String
  command : List String
  executable : String
  log_file : String
  pid_file : String
  ports : List Int
  deriving DecidableEq

/-- Strip leading and trailing whitespace, as Python's `str.strip()`. -/
def stripChars (l : List Char) : List Char :=
  ((l.dropWhile Char.isWhitespace).reverse.dropWhile Char.isWhitespace).reverse

def parseDigitsAux : List Char → Nat → Option Nat
  | [], acc => some acc
  | c :: cs, acc =>
    if c.isDigit then parseDigitsAux cs (acc * 10 + (c.toNat - 48)) else none

def parseDigits : List Char → Option Nat
  | [] => none
  | cs => parseDigitsAux cs 0

/-- Python's `int(s)` on decimal text: strip whitespace, optional sign,
then at least one ASCII digit; anything else raises ValueError, modelled
as `none`.  (Underscore digit grouping and non-ASCII digits, which CPython
also accepts, are outside the model.) -/
def pythonInt (s : String) : Option Int :=
  match stripChars s.data with
  | [] => none
  | '+' :: rest => (parseDigits rest).map (fun n => (n : Int))
  | '-' :: rest => (parseDigits rest).map (fun n => -(n : Int))
  | cs => (parseDigits cs).map (fun n => (n : Int))

/-- `read_pid`: read the PID file text and parse it; `FileNotFoundError`,
`ValueError` and `OSError` all give `None`. -/
def read_pid (fs : Fs) (pid_file : String) : Option Int :=
  match fs.get pid_file with
  | .readable c => pythonInt c
  | .absent => none
  | .unreadable => none

/-- `write_pid`: overwrite the PID file with the textual pid. -/
def write_pid (fs : Fs) (pid_file : String) (pid : Int) : Fs :=
  fs.set pid_file (.readable (toString pid))

/-- `remove_pid_file`: unlink, treating a missing file as success. -/
def remove_pid_file (fs : Fs) (pid_file : String) : Fs :=
  fs.set pid_file .absent

/-- `process_is_running`: non-positive pids are never running, otherwise
ask `psutil.pid_exists`. -/
def process_is_running (env : Env) (pid : Int) : Bool :=
  if pid ≤ 0 then false else env.alive pid

/-- One termination action issued by `terminate_process_tree`:
a graceful `terminate()` request or a forceful `kill()`. -/
inductive PEvent where
  | term (pid : Int)
  | kill (pid : Int)
  deriving DecidableEq

def PEvent.target : PEvent → Int
  | .term p => p
  | .kill p => p

/-- Result of `terminate_process_tree`: the returned Bool plus the ordered
trace of termination actions it issued. -/
structure TermResult where
  result : Bool
  trace : List PEvent
  deriving DecidableEq

/-- `terminate_process_tree`: guard non-positive pids; resolve the handle
(`NoSuchProcess`/`AccessDenied` give `False`); terminate all recursive
children, wait 3s, kill survivors; then terminate the root (a raised
`psutil.Error` gives `False`), wait 5s, and on timeout kill it and return
`False`.  The `try/except pass` around each child terminate/kill only
suppresses errors, so the attempt is recorded unconditionally. -/
def terminate_process_tree (env : Env) (pid : Int) : TermResult :=
  if pid ≤ 0 then ⟨false, []⟩
  else if env.alive pid = false ∨ env.procAccessDenied pid = true then ⟨false, []⟩
  else
    let children := env.descendants pid
    let survivors := children.filter (fun c => env.childExitsIn3 c = false)
    let childPhase := children.map PEvent.term ++ survivors.map PEvent.kill
    if env.rootTermRaises pid = true then ⟨false, childPhase ++ [PEvent.term pid]⟩
    else if env.rootExitsIn5 pid = true then ⟨true, childPhase ++ [PEvent.term pid]⟩
    else ⟨false, childPhase ++ [PEvent.term pid, PEvent.kill pid]⟩

def CONN_LISTEN : String := "LISTEN"

/-- `port_is_listening`: scan the connection table and return True on the
first LISTEN entry for the port; if the scan raises or finds no match,
fall through to a 200ms loopback TCP connect and report its success. -/
def port_is_listening (env : Env) (port : Int) : Bool :=
  match env.netConns with
  | some conns =>
    if conns.any (fun c => c.laddrPresent && c.laddrPort == port && c.status == CONN_LISTEN)
    then true
    else env.connectOk port
  | none => env.connectOk port

/-- The behaviour the spec's words ascribe to `isPortListening`: the
connect fallback is used only when the table cannot be queried.  Written
from the spec for comparison with `port_is_listening` above. -/
def port_is_listening_spec (env : Env) (port : Int) : Bool :=
  match env.netConns with
  | some conns =>
    conns.any (fun c => c.laddrPresent && c.laddrPort == port && c.status == CONN_LISTEN)
  | none => env.connectOk port

/-- Whether the connection table is queryable and shows a LISTEN entry
bound to the port. -/
def tableHasListen (env : Env) (port : Int) : Bool :=
  match env.netConns with
  | some conns =>
    conns.any (fun c => c.laddrPresent && c.laddrPort == port && c.status == CONN_LISTEN)
  | none => false

/-- `prepare_log_file`: if the log exists, try to unlink it and report
truncate semantics (`append = false`); a failed unlink, or a missing log,
reports append semantics.  The `mkdir(parents=True)` call is a no-op in
this path-keyed file-system model. -/
def prepare_log_file (env : Env) (fs : Fs) (log_file : String) : Fs × Bool :=
  match fs.get log_file with
  | .absent => (fs, true)
  | _ => if env.logUnlinkFails then (fs, true) else (fs.set log_file .absent, false)

def alreadyRunningMsg (cfg : ServerConfig) (p : Int) : String :=
  "[" ++ cfg.key ++ "] Already running (PID " ++ toString p ++ ")"

def startingMsg (cfg : ServerConfig) (background : Bool) : String :=
  "[" ++ cfg.key ++ "] Starting " ++
    (if background then "in background" else "in foreground") ++ "..."

def commandMsg (cfg : ServerConfig) : String :=
  "[" ++ cfg.key ++ "] Command: " ++ String.intercalate " " cfg.command

def logsMsg (cfg : ServerConfig) : String :=
  "[" ++ cfg.key ++ "] Logs -> " ++ cfg.log_file

def runningMsg (cfg : ServerConfig) (p : Int) : String :=
  "[" ++ cfg.key ++ "] Running (PID " ++ toString p ++ ")"

def warnExitedMsg (cfg : ServerConfig) : String :=
  "[" ++ cfg.key ++ "] Warning: process exited immediately. Check logs."

def cleanExitMsg (cfg : ServerConfig) : String :=
  "[" ++ cfg.key ++ "] Process exited cleanly"

def codeExitMsg (cfg : ServerConfig) (c : Int) : String :=
  "[" ++ cfg.key ++ "] Process exited with code " ++ toString c

/-- Result of `start_server`: the file system afterwards, the stdout
lines printed, and the pids of processes spawned (empty when no spawn
happened). -/
structure StartResult where
  fs : Fs
  output : List String
  spawned : List Int
  deriving DecidableEq

/-- The spawn half of `start_server`, from `prepare_log_file` on.
Background: `spawn_process` opens the log with mode `ab`/`wb` per the
append flag and detaches the child; `write_pid` records the child's pid;
after a 2s sleep one `poll()` decides between the Running line and the
immediate-exit warning.  Foreground: the child is spawned with piped
output, the pid recorded, every line teed to console and log (append if
the log file exists, else truncate), and after the child exits the PID
file is removed and the exit code reported. -/
def start_spawn (env : Env) (cfg : ServerConfig) (background : Bool) (fs : Fs) :
    StartResult :=
  let prep := prepare_log_file env fs cfg.log_file
  let fs1 := prep.1
  let append_logs := prep.2
  let header := [startingMsg cfg background, commandMsg cfg, logsMsg cfg]
  let newPid := env.spawnPid
  if background then
    let fs2 :=
      if append_logs then
        match fs1.get cfg.log_file with
        | .absent => fs1.set cfg.log_file (.readable "")
        | _ => fs1
      else fs1.set cfg.log_file (.readable "")
    let fs3 := write_pid fs2 cfg.pid_file newPid
    let tailMsg := if env.spawnExitedImmediately then warnExitedMsg cfg else runningMsg cfg newPid
    ⟨fs3, header ++ [tailMsg], [newPid]⟩
  else
    let fs2 := write_pid fs1 cfg.pid_file newPid
    let oldContent :=
      match fs2.get cfg.log_file with
      | .readable c => c
      | _ => ""
    let fs3 := fs2.set cfg.log_file (.readable (oldContent ++ String.join env.fgOutput))
    let fs4 := remove_pid_file fs3 cfg.pid_file
    let exitMsg := if env.fgExitCode = 0 then cleanExitMsg cfg else codeExitMsg cfg env.fgExitCode
    ⟨fs4, header ++ env.fgOutput ++ [exitMsg], [newPid]⟩

/-- `start_server`: validate the working directory and the executable
(each failure is `sys.exit(1)`, modelled as `.error 1`); if the recorded
PID is truthy and running, print the already-running line and return
without spawning; otherwise run the spawn half. -/
def start_server (env : Env) (cfg : ServerConfig) (background : Bool) (fs : Fs) :
    Except Nat StartResult :=
  if env.dirExists cfg.directory = false then .error 1
  else if env.onPath cfg.executable = false then .error 1
  else
    match read_pid fs cfg.pid_file with
    | some p =>
      if p ≠ 0 ∧ process_is_running env p = true then
        .ok ⟨fs, [alreadyRunningMsg cfg p], []⟩
      else .ok (start_spawn env cfg background fs)
    | none => .ok (start_spawn env cfg background fs)

/-- The candidate set of the reconciler fallback: distinct pids of
connection-table entries with a truthy local address, a local port among
the server's expected ports, and a truthy pid.  A raised `psutil.Error`
leaves the set empty.  Python iterates the set in an unspecified order;
`List.dedup` fixes one order, and the theorems below use only membership
and distinctness. -/
def scan_candidates (env : Env) (ports : List Int) : List Int :=
  match env.netConns with
  | none => []
  | some conns =>
    (conns.filterMap (fun c =>
      match c.pid with
      | some p => if c.laddrPresent = true ∧ c.laddrPort ∈ ports ∧ p ≠ 0 then some p else none
      | none => none)).dedup

def stoppingMsg (cfg : ServerConfig) (p : Int) : String :=
  "[" ++ cfg.key ++ "] Stopping PID " ++ toString p ++ "..."

def stoppedMsg (cfg : ServerConfig) : String :=
  "[" ++ cfg.key ++ "] Stopped successfully"

def noneDetectedMsg (cfg : ServerConfig) : String :=
  "[" ++ cfg.key ++ "] No running process detected on expected ports"

def terminatingMsg (cfg : ServerConfig) (p : Int) : String :=
  "[" ++ cfg.key ++ "] Terminating process " ++ toString p ++ " detected on expected port"

/-- Result of `stop_server`: file system afterwards, stdout lines, the
pid `terminate_process_tree` was called on in the PID-file phase (if
any), and the pids it was called on in the port-scan fallback phase. -/
structure StopResult where
  fs : Fs
  output : List String
  primaryTerm : Option Int
  fallbackTerm : List Int
  deriving DecidableEq

/-- The port-scan fallback block at the end of `stop_server`: collect
candidates, report when none, otherwise terminate each candidate
(results ignored, best-effort). -/
def stop_fallback (env : Env) (cfg : ServerConfig) (fs : Fs) (msgs : List String)
    (primary : Option Int) : StopResult :=
  let cands := scan_candidates env cfg.ports
  if cands.isEmpty then ⟨fs, msgs ++ [noneDetectedMsg cfg], primary, []⟩
  else ⟨fs, msgs ++ cands.map (fun q => terminatingMsg cfg q), primary, cands⟩

/-- `stop_server`: read the recorded PID; if truthy and running,
terminate its tree — on success remove the PID file and stop; on failure
the stale-file check `pid and not process_is_running(pid)` re-reads the
same liveness snapshot, so the PID file is kept and control falls to the
port-scan fallback.  A truthy-but-dead PID has its stale file removed
before the fallback; a missing or falsy PID goes straight to it. -/
def stop_server (env : Env) (cfg : ServerConfig) (fs : Fs) : StopResult :=
  match read_pid fs cfg.pid_file with
  | none => stop_fallback env cfg fs [] none
  | some p =>
    if p ≠ 0 ∧ process_is_running env p = true then
      if (terminate_process_tree env p).result = true then
        ⟨remove_pid_file fs cfg.pid_file, [stoppingMsg cfg p, stoppedMsg cfg], some p, []⟩
      else stop_fallback env cfg fs [stoppingMsg cfg p] (some p)
    else
      stop_fallback env cfg
        (if p ≠ 0 ∧ process_is_running env p = false then remove_pid_file fs cfg.pid_file else fs)
        [] none

/-- `restart_server`: stop, settle for a fixed 2s (no state effect in the
model), then start. -/
def restart_server (env : Env) (cfg : ServerConfig) (background : Bool) (fs : Fs) :
    Except Nat StartResult :=
  start_server env cfg background (stop_server env cfg fs).fs

/-- Python `readlines()`: split into lines, each keeping its trailing
newline; a final chunk without a newline is still a line. -/
def readlinesAux : List Char → List Char → List String
  | [], acc => if acc = [] then [] else [String.mk acc.reverse]
  | c :: cs, acc =>
    if c = '\n' then String.mk (c :: acc).reverse :: readlinesAux cs []
    else readlinesAux cs (c :: acc)

def pythonReadlines (s : String) : List String := readlinesAux s.data []

/-- Python list slice `l[start:]` for an arbitrary integer start. -/
def pySliceFrom (l : List String) (start : Int) : List String :=
  if start < 0 then l.drop (l.length - (-start).toNat)
  else l.drop start.toNat

/-- `tail_log`: a missing log gives `[]`; otherwise the file is read and
the slice `content[-lines:]` returned.  Note `-0 = 0`, so `lines = 0`
returns the whole file.  An unreadable log makes `open` raise an uncaught
OSError, modelled as `none`. -/
def tail_log (fs : Fs) (log_file : String) (lines : Int) : Option (List String) :=
  match fs.get log_file with
  | .absent => some []
  | .unreadable => none
  | .readable c => some (pySliceFrom (pythonReadlines c) (-lines))

/-- Python `str.rstrip()`: drop trailing whitespace. -/
def rstripStr (s : String) : String :=
  String.mk (s.data.reverse.dropWhile Char.isWhitespace).reverse

/-- Result of `show_status`: stdout lines, the file system afterwards,
and whether the call died on an uncaught read error from the log file. -/
structure StatusResult where
  output : List String
  fs : Fs
  crashed : Bool
  deriving DecidableEq

/-- `show_status`: header; running/not-running from the recorded PID plus
an optional resource line (a raised `psutil.Error` suppresses it); the
expected ports currently listening; the last `tailLines` log lines
(rstripped and indented) or a no-log-file line.  Only reads are
performed. -/
def show_status (env : Env) (cfg : ServerConfig) (tailLines : Int) (fs : Fs) :
    StatusResult :=
  let header := "=== " ++ cfg.key.toUpper ++ " ==="
  let runLines :=
    match read_pid fs cfg.pid_file with
    | some p =>
      if p ≠ 0 ∧ process_is_running env p = true then
        ("✓ Running (PID " ++ toString p ++ ")") ::
          (match env.statsLine p with
           | some s => [s]
           | none => [])
      else ["✗ Not running"]
    | none => ["✗ Not running"]
  let listening := cfg.ports.filter (fun port => port_is_listening env port)
  let portLines :=
    if listening.isEmpty then
      ["  No expected ports (" ++ String.intercalate ", " (cfg.ports.map toString) ++ ") are listening"]
    else ["  Ports in use: " ++ String.intercalate ", " (listening.map toString)]
  match tail_log fs cfg.log_file tailLines with
  | none => ⟨header :: runLines ++ portLines, fs, true⟩
  | some logs =>
    let logLines :=
      if logs.isEmpty then ["  No log file at " ++ cfg.log_file]
      else
        ("  Last " ++ toString (min tailLines (logs.length : Int)) ++ " log lines from " ++ cfg.log_file ++ ":") ::
          logs.map (fun l => "    " ++ rstripStr l)
    ⟨header :: runLines ++ portLines ++ logLines ++ [""], fs, false⟩

/-- A value of the TOML document as handed over by `tomllib.load`. -/
inductive Toml where
  | str (s : String)
  | int (n : Int)
  | bool (b : Bool)
  | arr (items : List Toml)
  | table (entries : List (String × Toml))

def tlookup : List (String × Toml) → String → Option Toml
  | [], _ => none
  | (k, v) :: rest, key => if k = key then some v else tlookup rest key

/-- Python `str(x)` on TOML values, as used for the `executable` field and
command-list items.  Only strings matter to the claims; the renderings of
the other shapes are abstract placeholders. -/
def pyStr : Toml → String
  | .str s => s
  | .int n => toString n
  | .bool b => if b then "True" else "False"
  | .arr _ => "<array>"
  | .table _ => "<table>"

/-- Abstract stand-in for the directory of the script
(`Path(__file__).resolve().parent`); its concrete value never matters. -/
def REPO_ROOT : String := "/repo"

/-- Whether a POSIX path is absolute (`Path.is_absolute`): it begins with
the separator. -/
def isAbsolutePath (s : String) : Bool :=
  match s.data with
  | [] => false
  | c :: _ => c = '/'

/-- `resolve_path`: non-strings raise `SystemExit` with a message (exit
code 1); relative paths are anchored at the repository root.  The
`.resolve()` normalisation of dots and symlinks is outside the model. -/
def resolve_path (v : Toml) : Except Nat String :=
  match v with
  | .str s => .ok (if isAbsolutePath s then s else REPO_ROOT ++ "/" ++ s)
  | _ => .error 1

def splitWsAux : List Char → List Char → List String
  | [], acc => if acc = [] then [] else [String.mk acc.reverse]
  | c :: cs, acc =>
    if c.isWhitespace then
      if acc = [] then splitWsAux cs []
      else String.mk acc.reverse :: splitWsAux cs []
    else splitWsAux cs (c :: acc)

/-- `shlex.split`, abstracted to whitespace tokenisation (the claims only
depend on emptiness of the result, which this preserves for unquoted
commands). -/
def shlexSplit (s : String) : List String := splitWsAux s.data []

/-- `normalize_command`: a string is tokenised, a TOML array is rendered
element-wise with `str`; anything else, or an empty result, raises
`SystemExit` (exit code 1). -/
def normalize_command (v : Toml) : Except Nat (List String) :=
  match v with
  | .str s =>
    let parts := shlexSplit s
    if parts.isEmpty then .error 1 else .ok parts
  | .arr items =>
    let parts := items.map pyStr
    if parts.isEmpty then .error 1 else .ok parts
  | _ => .error 1

/-- A single ports entry through Python `int()`: ints pass, numeric
strings parse, booleans coerce to 0/1, anything else raises and becomes
the ports-must-be-integers `SystemExit` (exit code 1). -/
def port_of : Toml → Except Nat Int
  | .int n => .ok n
  | .str s =>
    match pythonInt s with
    | some n => .ok n
    | none => .error 1
  | .bool b => .ok (if b then 1 else 0)
  | _ => .error 1

def ports_of : List Toml → Except Nat (List Int)
  | [] => .ok []
  | t :: rest =>
    match port_of t with
    | .error c => .error c
    | .ok n =>
      match ports_of rest with
      | .error c => .error c
      | .ok ns => .ok (n :: ns)

/-- `normalize_ports`: the value must be a TOML array (a string is a
Python `Sequence` but explicitly excluded); each entry goes through
`int()`. -/
def normalize_ports : Toml → Except Nat (List Int)
  | .arr items => ports_of items
  | _ => .error 1

def requiredFields : List String :=
  ["directory", "command", "executable", "log_file", "pid_file", "ports"]

/-- `parse_server_entry`: report missing required fields (exit code 1),
then resolve paths, normalise the command and the ports, and coerce the
executable name with `str`. -/
def parse_server_entry (key : String) (entry : List (String × Toml)) :
    Except Nat ServerConfig :=
  if (requiredFields.filter (fun f => (tlookup entry f).isNone)).isEmpty = false then .error 1
  else
    match tlookup entry "directory", tlookup entry "command", tlookup entry "executable",
        tlookup entry "log_file", tlookup entry "pid_file", tlookup entry "ports" with
    | some dv, some cv, some ev, some lv, some pv, some tv =>
      match resolve_path dv with
      | .error c => .error c
      | .ok dir =>
        match normalize_command cv with
        | .error c => .error c
        | .ok cmd =>
          match resolve_path lv with
          | .error c => .error c
          | .ok log =>
            match resolve_path pv with
            | .error c => .error c
            | .ok pidf =>
              match normalize_ports tv with
              | .error c => .error c
              | .ok ports => .ok ⟨key, dir, cmd, pyStr ev, log, pidf, ports⟩
    | _, _, _, _, _, _ => .error 1

def parse_entries : List (String × Toml) → Except Nat (List (String × ServerConfig))
  | [] => .ok []
  | (k, v) :: rest =>
    match v with
    | .table e =>
      match parse_server_entry k e with
      | .error c => .error c
      | .ok cfg =>
        match parse_entries rest with
        | .error c => .error c
        | .ok rest2 => .ok ((k, cfg) :: rest2)
    | _ => .error 1

/-- `load_server_configs`: a missing config file, a missing or non-table
`[servers]` section, a bad entry, or an empty definition list are fatal
configuration errors (`sys.exit(1)`); the input is the parsed document
mapping, `none` when the file does not exist. -/
def load_server_configs (doc : Option (List (String × Toml))) :
    Except Nat (List (String × ServerConfig)) :=
  match doc with
  | none => .error 1
  | some data =>
    match tlookup data "servers" with
    | some (.table entries) =>
      match parse_entries entries with
      | .error c => .error c
      | .ok configs => if configs.isEmpty then .error 1 else .ok configs
    | _ => .error 1

structure ParsedArgs where
  action : String
  target : String
  background : Bool
  tailN : Int
  deriving DecidableEq

def actionChoices : List String := ["start", "stop", "restart", "status"]

/-- `parse_args`: argparse validates `action` and `target` against their
choices and exits with status 2 on an invalid choice (its standard error
behaviour); `--background` and `--tail` pass through. -/
def parse_args (serverOrder : List String) (action target : String) (background : Bool)
    (tailN : Int) : Except Nat ParsedArgs :=
  if action ∈ actionChoices then
    if target ∈ serverOrder ++ ["both"] then .ok ⟨action, target, background, tailN⟩
    else .error 2
  else .error 2

def slookup : List (String × ServerConfig) → String → Option ServerConfig
  | [], _ => none
  | (k, v) :: rest, key => if k = key then some v else slookup rest key

/-- `resolve_targets`: "both" selects every configured server in order;
otherwise the named server is looked up, an unknown name raising
`SystemExit` with a message (exit code 1; unreachable after argparse
validation). -/
def resolve_targets (servers : List (String × ServerConfig)) (target : String) :
    Except Nat (List ServerConfig) :=
  if target = "both" then .ok (servers.map Prod.snd)
  else
    match slookup servers target with
    | some c => .ok [c]
    | none => .error 1

/-- Run one per-server step over each selected config, threading the file
system; an uncaught `SystemExit`/exception aborts the remaining servers. -/
def run_each (step : Fs → ServerConfig → Except Nat Fs) :
    Fs → List ServerConfig → Except Nat Fs
  | fs, [] => .ok fs
  | fs, c :: rest =>
    match step fs c with
    | .error e => .error e
    | .ok fs2 => run_each step fs2 rest

/-- One iteration of main's start loop: run `start_server` and thread the
file system (a `sys.exit` propagates). -/
def start_step (env : Env) (bg : Bool) (fs : Fs) (c : ServerConfig) : Except Nat Fs :=
  match start_server env c bg fs with
  | .error e => .error e
  | .ok r => .ok r.fs

/-- One iteration of main's stop loop (`stop_server` never exits). -/
def stop_step (env : Env) (fs : Fs) (c : ServerConfig) : Except Nat Fs :=
  .ok (stop_server env c fs).fs

/-- One iteration of main's restart loop. -/
def restart_step (env : Env) (bg : Bool) (fs : Fs) (c : ServerConfig) : Except Nat Fs :=
  match restart_server env c bg fs with
  | .error e => .error e
  | .ok r => .ok r.fs

/-- One iteration of main's status loop: a `show_status` crash on an
unreadable log is an uncaught exception, terminating the process with
exit code 1. -/
def status_step (env : Env) (tailN : Int) (fs : Fs) (c : ServerConfig) : Except Nat Fs :=
  let r := show_status env c tailN fs
  if r.crashed then .error 1 else .ok r.fs

/-- `main`: parse arguments, resolve targets, auto-promote to background
mode when several servers are started or restarted, then run the
per-server loop of the chosen action and return 0.  The trailing
unknown-action branch returns 1 (dead code after argparse validation). -/
def main_model (env : Env) (servers : List (String × ServerConfig)) (action target : String)
    (backgroundFlag : Bool) (tailN : Int) (fs : Fs) : Except Nat (Int × Fs) :=
  match parse_args (servers.map Prod.fst) action target backgroundFlag tailN with
  | .error c => .error c
  | .ok args =>
    match resolve_targets servers args.target with
    | .error c => .error c
    | .ok configs =>
      let background :=
        if 1 < configs.length ∧ (args.action = "start" ∨ args.action = "restart") ∧
            args.background = false
        then true else args.background
      if args.action = "start" then
        match run_each (start_step env background) fs configs with
        | .error e => .error e
        | .ok fs2 => .ok (0, fs2)
      else if args.action = "stop" then
        match run_each (stop_step env) fs configs with
        | .error e => .error e
        | .ok fs2 => .ok (0, fs2)
      else if args.action = "restart" then
        match run_each (restart_step env background) fs configs with
        | .error e => .error e
        | .ok fs2 => .ok (0, fs2)
      else if args.action = "status" then
        match run_each (status_step env args.tailN) fs configs with
        | .error e => .error e
        | .ok fs2 => .ok (0, fs2)
      else .ok (1, fs)

/-- Exit code of one whole invocation of the script: configuration
loading happens at import time, then `raise SystemExit(main(argv))`
makes the process exit code the value returned (or raised) on the way
out. -/
def script_exit (env : Env) (doc : Option (List (String × Toml))) (action target : String)
    (backgroundFlag : Bool) (tailN : Int) (fs : Fs) : Int :=
  match load_server_configs doc with
  | .error c => (c : Int)
  | .ok servers =>
    match main_model env servers action target backgroundFlag tailN fs with
    | .error c => (c : Int)
    | .ok r => r.1

/-! Concrete fixtures used by witness and counterexample theorems. -/

/-- A quiet base oracle: no process alive, every directory and executable
present, empty connection table, loopback connects refused. -/
def baseEnv : Env where
  alive := fun _ => false
  dirExists := fun _ => true
  onPath := fun _ => true
  procAccessDenied := fun _ => false
  descendants := fun _ => []
  childExitsIn3 := fun _ => true
  rootTermRaises := fun _ => false
  rootExitsIn5 := fun _ => true
  netConns := some []
  connectOk := fun _ => false
  statsLine := fun _ => none
  spawnPid := 99
  spawnExitedImmediately := false
  fgExitCode := 0
  fgOutput := []
  logUnlinkFails := false

/-- The empty file system. -/
def fs0 : Fs := ⟨[]⟩

/-- A concrete backend server definition. -/
def cfgB : ServerConfig :=
  ⟨"backend", "/srv", ["run", "serve"], "run", "/logs/b.log", "/run/b.pid", [8080]⟩

/-- A concrete parsed configuration document that loads to `cfgB`. -/
def docB : Option (List (String × Toml)) :=
  some [("servers", .table [("backend", .table [
    ("directory", .str "/srv"),
    ("command", .str "run serve"),
    ("executable", .str "run"),
    ("log_file", .str "/logs/b.log"),
    ("pid_file", .str "/run/b.pid"),
    ("ports", .arr [.int 8080])])])]

/-- Oracle in which only pid 7 is alive. -/
def envAlive7 : Env := { baseEnv with alive := fun q => q == 7 }

/-- Oracle for a process tree: root 10 with descendants 11 and 12, child
11 exits within the graceful wait, the root survives its 5s budget. -/
def envTree : Env :=
  { baseEnv with
    alive := fun q => q == 10
    descendants := fun q => if q == 10 then [11, 12] else []
    childExitsIn3 := fun q => q == 11
    rootExitsIn5 := fun _ => false }

/-- Oracle with no recorded processes but pid 33 holding a non-LISTEN
connection on port 8080. -/
def envStray : Env :=
  { baseEnv with netConns := some [⟨true, 8080, "ESTABLISHED", some 33⟩] }

/-- Oracle with a queryable, empty connection table but a loopback
connect that succeeds on every port. -/
def envConnectOnly : Env := { baseEnv with connectOk := fun _ => true }

end ServerManager

namespace ServerManager

theorem Fs.get_set_self (fs : Fs) (p : String) (d : FileData) : (fs.set p d).get p = d := by
  simp [Fs.get, Fs.set, lookupFd]

theorem Fs.get_set_ne (fs : Fs) (p q : String) (d : FileData) (h : p ≠ q) :
    (fs.set p d).get q = fs.get q := by
  simp [Fs.get, Fs.set, lookupFd, h]

/-- C5: `read_pid` never raises: absent, unreadable and unparsable
content (such as the text "notanumber") give `none`, and readable content
is answered by Python's `int` parse. -/
theorem read_pid_total_spec (fs : Fs) (path : String) :
    (fs.get path = .absent → read_pid fs path = none) ∧
    (fs.get path = .unreadable → read_pid fs path = none) ∧
    (∀ c : String, fs.get path = .readable c → read_pid fs path = pythonInt c) ∧
    pythonInt "notanumber" = none := by
  refine ⟨fun h => ?_, fun h => ?_, fun c h => ?_, by decide⟩ <;> simp [read_pid, h]

theorem read_pid_total_spec_witness :
    (Fs.set fs0 "/run/b.pid" (.readable "notanumber")).get "/run/b.pid" =
      .readable "notanumber" ∧
    read_pid (Fs.set fs0 "/run/b.pid" (.readable "notanumber")) "/run/b.pid" =
      pythonInt "notanumber" :=
  ⟨by decide,
   (read_pid_total_spec (Fs.set fs0 "/run/b.pid" (.readable "notanumber")) "/run/b.pid").2.2.1
     "notanumber" (by decide)⟩

/-- C6: PID Store round-trip: writing 4242 then reading yields 4242;
after removal, reading yields none; and removal is a total operation that
leaves every other path untouched, so removing an already-missing file is
not an error. -/
theorem pid_store_roundtrip (fs : Fs) (path : String) :
    read_pid (write_pid fs path 4242) path = some 4242 ∧
    read_pid (remove_pid_file (write_pid fs path 4242) path) path = none ∧
    (∀ q : String, (remove_pid_file fs path).get q =
      if path = q then FileData.absent else fs.get q) := by
  refine ⟨?_, ?_, fun q => ?_⟩
  · simp [read_pid, write_pid, Fs.get_set_self]
    decide
  · simp [read_pid, remove_pid_file, Fs.get_set_self]
  · by_cases h : path = q
    · subst h
      simp [remove_pid_file, Fs.get_set_self]
    · simp [remove_pid_file, Fs.get_set_ne _ _ _ _ h, h]

/-- C7 counterexample: with a queryable connection table that contains no
LISTEN entry for port 8080 but a loopback connect that succeeds,
`port_is_listening` returns true — the claim says it would return false
and that the connect fallback is used only when the table cannot be
queried (`port_is_listening_spec`, written from the spec, disagrees with
the code here). -/
theorem port_is_listening_counterexample :
    port_is_listening envConnectOnly 8080 = true ∧
    tableHasListen envConnectOnly 8080 = false ∧
    port_is_listening_spec envConnectOnly 8080 = false :=
  ⟨by decide, by decide, by decide⟩

/-- C7 amended: `port_is_listening` returns true exactly when the
connection table shows a LISTEN entry on the port or the loopback
connect succeeds; the connect fallback is reached both when the table
cannot be queried and when it simply has no matching entry. -/
theorem port_is_listening_fallback_eq (env : Env) (port : Int) :
    port_is_listening env port = (tableHasListen env port || env.connectOk port) := by
  unfold port_is_listening tableHasListen
  cases env.netConns with
  | none => simp
  | some conns =>
    cases h : conns.any
        (fun c => c.laddrPresent && c.laddrPort == port && c.status == CONN_LISTEN) with
    | false => simp [h]
    | true => simp [h]

theorem tail_log_none_iff (fs : Fs) (log : String) (lines : Int) :
    tail_log fs log lines = none ↔ fs.get log = .unreadable := by
  unfold tail_log
  cases fs.get log <;> simp

theorem show_status_fs_eq (env : Env) (cfg : ServerConfig) (tailLines : Int) (fs : Fs) :
    (show_status env cfg tailLines fs).fs = fs := by
  unfold show_status
  cases tail_log fs cfg.log_file tailLines <;> simp

/-- C9: `show_status` is read-only on persisted state: it returns the
file system unchanged, and in particular both the PID file and the log
file hold exactly what they held before the call. -/
theorem show_status_readonly (env : Env) (cfg : ServerConfig) (tailLines : Int) (fs : Fs) :
    (show_status env cfg tailLines fs).fs = fs ∧
    ((show_status env cfg tailLines fs).fs).get cfg.pid_file = fs.get cfg.pid_file ∧
    ((show_status env cfg tailLines fs).fs).get cfg.log_file = fs.get cfg.log_file := by
  refine ⟨show_status_fs_eq env cfg tailLines fs, ?_, ?_⟩ <;>
    rw [show_status_fs_eq env cfg tailLines fs]

/-- C10: on an existing readable log file, `tail_log` with 0 requested
lines returns every line of the file, because the slice taking the last
0 lines (`content[-0:]`) degenerates to the whole list. -/
theorem tail_log_zero_returns_all (fs : Fs) (log : String) (c : String)
    (h : fs.get log = .readable c) :
    tail_log fs log 0 = some (pythonReadlines c) := by
  unfold tail_log
  rw [h]
  simp [pySliceFrom]

theorem tail_log_zero_returns_all_witness :
    (Fs.set fs0 "/logs/b.log" (.readable "a\nb\n")).get "/logs/b.log" = .readable "a\nb\n" ∧
    tail_log (Fs.set fs0 "/logs/b.log" (.readable "a\nb\n")) "/logs/b.log" 0 =
      some ["a\n", "b\n"] :=
  ⟨by decide,
   (tail_log_zero_returns_all (Fs.set fs0 "/logs/b.log" (.readable "a\nb\n")) "/logs/b.log"
       "a\nb\n" (by decide)).trans (by decide)⟩

/-- C1: idempotent start: when the recorded PID names a live process (and
the directory/executable preconditions pass), `start_server` spawns
nothing, prints the already-running line, and returns the file system —
PID file included — unchanged. -/
theorem start_server_idempotent (env : Env) (cfg : ServerConfig) (background : Bool)
    (fs : Fs) (p : Int)
    (hdir : env.dirExists cfg.directory = true)
    (hexe : env.onPath cfg.executable = true)
    (hpid : read_pid fs cfg.pid_file = some p)
    (hrun : process_is_running env p = true) :
    start_server env cfg background fs = .ok ⟨fs, [alreadyRunningMsg cfg p], []⟩ := by
  have hp0 : p ≠ 0 := by
    intro h
    rw [h] at hrun
    simp [process_is_running] at hrun
  unfold start_server
  simp [hdir, hexe, hpid, hrun, hp0]

theorem start_server_idempotent_witness :
    read_pid (Fs.set fs0 "/run/b.pid" (.readable "7")) "/run/b.pid" = some 7 ∧
    process_is_running envAlive7 7 = true ∧
    start_server envAlive7 cfgB true (Fs.set fs0 "/run/b.pid" (.readable "7")) =
      .ok ⟨Fs.set fs0 "/run/b.pid" (.readable "7"), [alreadyRunningMsg cfgB 7], []⟩ :=
  ⟨by decide, by decide,
   start_server_idempotent envAlive7 cfgB true (Fs.set fs0 "/run/b.pid" (.readable "7")) 7
     (by decide) (by decide) (by decide) (by decide)⟩

/-- C3: `terminate_process_tree` returns false when no process with the
root pid exists; when the root exists (and the handle and graceful
request are deliverable), it returns true exactly when the root exits
within the 5s graceful-wait budget, and when the budget expires it issues
a forceful kill of the root and returns false. -/
theorem terminate_tree_result_spec (env : Env) (pid : Int) :
    (¬ (0 < pid ∧ env.alive pid = true) → (terminate_process_tree env pid).result = false) ∧
    ((0 < pid ∧ env.alive pid = true) → env.procAccessDenied pid = false →
      env.rootTermRaises pid = false →
      ((terminate_process_tree env pid).result = true ↔ env.rootExitsIn5 pid = true) ∧
      (env.rootExitsIn5 pid = false →
        (terminate_process_tree env pid).result = false ∧
        PEvent.kill pid ∈ (terminate_process_tree env pid).trace)) := by
  constructor
  · intro h
    unfold terminate_process_tree
    by_cases h1 : pid ≤ 0
    · simp [h1]
    · have h2 : env.alive pid = false := by
        cases ha : env.alive pid
        · rfl
        · exact absurd ⟨by omega, ha⟩ h
      simp [h1, h2]
  · rintro ⟨hpos, halive⟩ had hraise
    have h1 : ¬ pid ≤ 0 := by omega
    unfold terminate_process_tree
    cases h5 : env.rootExitsIn5 pid <;> simp [h1, halive, had, hraise, h5]

theorem terminate_tree_result_spec_witness :
    (0 < (10 : Int) ∧ envTree.alive 10 = true) ∧
    (terminate_process_tree envTree 10).result = false :=
  ⟨⟨by decide, by decide⟩,
   (((terminate_tree_result_spec envTree 10).2 ⟨by decide, by decide⟩ (by decide)
       (by decide)).2 (by decide)).1⟩

theorem phase_order (children : List Int) (pid : Int) (hnd : pid ∉ children)
    (l₁ l₂ l : List PEvent) (hl : l = l₁ ++ l₂)
    (hc : ∀ e ∈ l₁, PEvent.target e ∈ children)
    (hr : ∀ e ∈ l₂, PEvent.target e = pid) :
    ∀ i j (hi : i < l.length) (hj : j < l.length),
      PEvent.target (l.get ⟨i, hi⟩) ∈ children →
      PEvent.target (l.get ⟨j, hj⟩) = pid → i < j := by
  subst hl
  intro i j hi hj hmi hmj
  have hlen : (l₁ ++ l₂).length = l₁.length + l₂.length := List.length_append l₁ l₂
  have hil : i < l₁.length := by
    by_contra hcon
    push_neg at hcon
    have hi2 : i - l₁.length < l₂.length := by omega
    have he : (l₁ ++ l₂).get ⟨i, hi⟩ = l₂.get ⟨i - l₁.length, hi2⟩ := by
      rw [List.get_eq_getElem, List.get_eq_getElem]
      exact List.getElem_append_right hcon
    have hmem : (l₁ ++ l₂).get ⟨i, hi⟩ ∈ l₂ := by
      rw [he]
      exact List.get_mem l₂ _ _
    have := hr _ hmem
    rw [this] at hmi
    exact hnd hmi
  have hjl : l₁.length ≤ j := by
    by_contra hcon
    push_neg at hcon
    have he : (l₁ ++ l₂).get ⟨j, hj⟩ = l₁.get ⟨j, hcon⟩ := by
      rw [List.get_eq_getElem, List.get_eq_getElem]
      exact List.getElem_append_left hcon
    have hmem : (l₁ ++ l₂).get ⟨j, hj⟩ ∈ l₁ := by
      rw [he]
      exact List.get_mem l₁ _ _
    have := hc _ hmem
    rw [hmj] at this
    exact hnd this
  omega

/-- C2: for a root pid whose process exists (and is accessible), every
termination action aimed at a transitive descendant occurs strictly
before any termination action aimed at the root in the trace of
`terminate_process_tree`, and every descendant receives a graceful
termination request. -/
theorem terminate_tree_children_first (env : Env) (pid : Int)
    (hpos : 0 < pid) (halive : env.alive pid = true)
    (had : env.procAccessDenied pid = false)
    (hnd : pid ∉ env.descendants pid) :
    (∀ d ∈ env.descendants pid, PEvent.term d ∈ (terminate_process_tree env pid).trace) ∧
    (∀ i j (hi : i < (terminate_process_tree env pid).trace.length)
        (hj : j < (terminate_process_tree env pid).trace.length),
      PEvent.target ((terminate_process_tree env pid).trace.get ⟨i, hi⟩) ∈ env.descendants pid →
      PEvent.target ((terminate_process_tree env pid).trace.get ⟨j, hj⟩) = pid → i < j) := by
  have h1 : ¬ pid ≤ 0 := by omega
  have hshape : ∃ l₂ : List PEvent,
      (terminate_process_tree env pid).trace =
        ((env.descendants pid).map PEvent.term ++
          ((env.descendants pid).filter (fun c => env.childExitsIn3 c = false)).map PEvent.kill)
          ++ l₂ ∧
      ∀ e ∈ l₂, PEvent.target e = pid := by
    unfold terminate_process_tree
    cases hR : env.rootTermRaises pid with
    | true =>
      exact ⟨[PEvent.term pid], by simp [h1, halive, had, hR],
        by intro e he; simp at he; subst he; rfl⟩
    | false =>
      cases h5 : env.rootExitsIn5 pid with
      | true =>
        exact ⟨[PEvent.term pid], by simp [h1, halive, had, hR, h5],
          by intro e he; simp at he; subst he; rfl⟩
      | false =>
        refine ⟨[PEvent.term pid, PEvent.kill pid], by simp [h1, halive, had, hR, h5], ?_⟩
        intro e he
        simp at he
        rcases he with rfl | rfl <;> rfl
  obtain ⟨l₂, htr, hl₂⟩ := hshape
  have hcp : ∀ e ∈ ((env.descendants pid).map PEvent.term ++
      ((env.descendants pid).filter (fun c => env.childExitsIn3 c = false)).map PEvent.kill),
      PEvent.target e ∈ env.descendants pid := by
    intro e he
    rcases List.mem_append.mp he with h | h
    · obtain ⟨d, hd, rfl⟩ := List.mem_map.mp h
      simpa [PEvent.target] using hd
    · obtain ⟨d, hd, rfl⟩ := List.mem_map.mp h
      have := List.mem_of_mem_filter hd
      simpa [PEvent.target] using this
  constructor
  · intro d hd
    rw [htr]
    exact List.mem_append.mpr (Or.inl (List.mem_append.mpr
      (Or.inl (List.mem_map.mpr ⟨d, hd, rfl⟩))))
  · exact phase_order (env.descendants pid) pid hnd _ l₂ _ htr hcp hl₂

theorem terminate_tree_children_first_witness :
    (0 < (10 : Int) ∧ envTree.alive 10 = true ∧ 10 ∉ envTree.descendants 10) ∧
    PEvent.term 11 ∈ (terminate_process_tree envTree 10).trace ∧
    PEvent.term 12 ∈ (terminate_process_tree envTree 10).trace :=
  ⟨⟨by decide, by decide, by decide⟩,
   (terminate_tree_children_first envTree 10 (by decide) (by decide) (by decide)
       (by decide)).1 11 (by decide),
   (terminate_tree_children_first envTree 10 (by decide) (by decide) (by decide)
       (by decide)).1 12 (by decide)⟩

theorem mem_scan_candidates (env : Env) (ports : List Int) (conns : List Conn)
    (h : env.netConns = some conns) (q : Int) :
    q ∈ scan_candidates env ports ↔
      ∃ c ∈ conns, c.laddrPresent = true ∧ c.laddrPort ∈ ports ∧ c.pid = some q ∧ q ≠ 0 := by
  unfold scan_candidates
  rw [h, List.mem_dedup, List.mem_filterMap]
  constructor
  · rintro ⟨c, hc, hf⟩
    refine ⟨c, hc, ?_⟩
    cases hcp : c.pid with
    | none => rw [hcp] at hf; cases hf
    | some p =>
      rw [hcp] at hf
      dsimp only at hf
      by_cases hcond : c.laddrPresent = true ∧ c.laddrPort ∈ ports ∧ p ≠ 0
      · rw [if_pos hcond] at hf
        obtain rfl : p = q := Option.some.inj hf
        exact ⟨hcond.1, hcond.2.1, rfl, hcond.2.2⟩
      · rw [if_neg hcond] at hf
        cases hf
  · rintro ⟨c, hc, hp, hport, hpid, hq⟩
    refine ⟨c, hc, ?_⟩
    rw [hpid]
    dsimp only
    rw [if_pos ⟨hp, hport, hq⟩]

theorem scan_candidates_nodup (env : Env) (ports : List Int) :
    (scan_candidates env ports).Nodup := by
  unfold scan_candidates
  cases env.netConns with
  | none => exact List.nodup_nil
  | some conns => exact List.nodup_dedup _

theorem stop_fallback_spec (env : Env) (cfg : ServerConfig) (fs : Fs) (msgs : List String)
    (primary : Option Int) :
    (stop_fallback env cfg fs msgs primary).fallbackTerm = scan_candidates env cfg.ports ∧
    (scan_candidates env cfg.ports = [] →
      noneDetectedMsg cfg ∈ (stop_fallback env cfg fs msgs primary).output) := by
  unfold stop_fallback
  cases hc : (scan_candidates env cfg.ports).isEmpty with
  | true =>
    have he : scan_candidates env cfg.ports = [] := List.isEmpty_iff.mp hc
    simp [hc, he]
  | false =>
    constructor
    · simp [hc]
    · intro he
      rw [he] at hc
      cases hc

theorem stop_server_reaches_fallback (env : Env) (cfg : ServerConfig) (fs : Fs)
    (hnouse :
      read_pid fs cfg.pid_file = none ∨
      (∃ p, read_pid fs cfg.pid_file = some p ∧ ¬ (p ≠ 0 ∧ process_is_running env p = true)) ∨
      (∃ p, read_pid fs cfg.pid_file = some p ∧ p ≠ 0 ∧ process_is_running env p = true ∧
        (terminate_process_tree env p).result = false)) :
    ∃ fsx msgs primary, stop_server env cfg fs = stop_fallback env cfg fsx msgs primary := by
  rcases hnouse with hn | ⟨p, hp, hcond⟩ | ⟨p, hp, hp0, hrun, hfail⟩
  · exact ⟨fs, [], none, by unfold stop_server; rw [hn]⟩
  · refine ⟨(if p ≠ 0 ∧ process_is_running env p = false then remove_pid_file fs cfg.pid_file
      else fs), [], none, ?_⟩
    unfold stop_server
    rw [hp]
    dsimp only
    rw [if_neg hcond]
  · refine ⟨fs, [stoppingMsg cfg p], some p, ?_⟩
    unfold stop_server
    rw [hp]
    dsimp only
    rw [if_pos (And.intro hp0 hrun)]
    rw [if_neg (by rw [hfail]; exact Bool.false_ne_true)]

/-- C4: when no recorded PID is usable (file missing, pid falsy or dead,
or PID-based termination failed), `stop_server` runs the port-scan
fallback: with the connection table queryable it terminates exactly the
distinct pids bound to any expected port, and when that candidate set is
empty it reports that no running process was detected; in particular,
with the PID file absent the PID read yields nothing and a process bound
to an expected port is still terminated. -/
theorem stop_server_port_fallback (env : Env) (cfg : ServerConfig) (fs : Fs)
    (conns : List Conn) (hconns : env.netConns = some conns)
    (hnouse :
      read_pid fs cfg.pid_file = none ∨
      (∃ p, read_pid fs cfg.pid_file = some p ∧ ¬ (p ≠ 0 ∧ process_is_running env p = true)) ∨
      (∃ p, read_pid fs cfg.pid_file = some p ∧ p ≠ 0 ∧ process_is_running env p = true ∧
        (terminate_process_tree env p).result = false)) :
    (stop_server env cfg fs).fallbackTerm = scan_candidates env cfg.ports ∧
    ((stop_server env cfg fs).fallbackTerm).Nodup ∧
    (∀ q : Int, q ∈ (stop_server env cfg fs).fallbackTerm ↔
      ∃ c ∈ conns, c.laddrPresent = true ∧ c.laddrPort ∈ cfg.ports ∧ c.pid = some q ∧ q ≠ 0) ∧
    (scan_candidates env cfg.ports = [] → noneDetectedMsg cfg ∈ (stop_server env cfg fs).output) ∧
    (fs.get cfg.pid_file = FileData.absent → read_pid fs cfg.pid_file = none) := by
  obtain ⟨fsx, msgs, primary, heq⟩ := stop_server_reaches_fallback env cfg fs hnouse
  obtain ⟨hterm, hmsg⟩ := stop_fallback_spec env cfg fsx msgs primary
  rw [heq]
  refine ⟨hterm, ?_, ?_, hmsg, fun h => by simp [read_pid, h]⟩
  · rw [hterm]
    exact scan_candidates_nodup env cfg.ports
  · intro q
    rw [hterm]
    exact mem_scan_candidates env cfg.ports conns hconns q

theorem stop_server_port_fallback_witness :
    read_pid fs0 cfgB.pid_file = none ∧
    (stop_server envStray cfgB fs0).fallbackTerm = scan_candidates envStray cfgB.ports ∧
    scan_candidates envStray cfgB.ports = [33] :=
  ⟨by decide,
   (stop_server_port_fallback envStray cfgB fs0 [⟨true, 8080, "ESTABLISHED", some 33⟩]
       (by decide) (Or.inl (by decide))).1,
   by decide⟩

theorem resolve_path_cases (v : Toml) :
    resolve_path v = .error 1 ∨ ∃ s, resolve_path v = .ok s := by
  cases v with
  | str s => exact Or.inr ⟨_, rfl⟩
  | int n => exact Or.inl rfl
  | bool b => exact Or.inl rfl
  | arr l => exact Or.inl rfl
  | table l => exact Or.inl rfl

theorem normalize_command_cases (v : Toml) :
    normalize_command v = .error 1 ∨ ∃ l, normalize_command v = .ok l := by
  cases v with
  | str s =>
    simp only [normalize_command]
    split
    · exact Or.inl rfl
    · exact Or.inr ⟨_, rfl⟩
  | arr items =>
    simp only [normalize_command]
    split
    · exact Or.inl rfl
    · exact Or.inr ⟨_, rfl⟩
  | int n => exact Or.inl rfl
  | bool b => exact Or.inl rfl
  | table l => exact Or.inl rfl

theorem port_of_cases (v : Toml) : port_of v = .error 1 ∨ ∃ n, port_of v = .ok n := by
  cases v with
  | int n => exact Or.inr ⟨n, rfl⟩
  | bool b => exact Or.inr ⟨_, rfl⟩
  | str s =>
    unfold port_of
    dsimp only
    cases hp : pythonInt s with
    | none => exact Or.inl rfl
    | some n => exact Or.inr ⟨n, rfl⟩
  | arr l => exact Or.inl rfl
  | table l => exact Or.inl rfl

theorem ports_of_cases (l : List Toml) :
    ports_of l = .error 1 ∨ ∃ ns, ports_of l = .ok ns := by
  induction l with
  | nil => exact Or.inr ⟨[], rfl⟩
  | cons t rest ih =>
    unfold ports_of
    rcases port_of_cases t with h1 | ⟨n, h1⟩
    · rw [h1]; exact Or.inl rfl
    · rw [h1]
      rcases ih with h2 | ⟨ns, h2⟩
      · rw [h2]; exact Or.inl rfl
      · rw [h2]; exact Or.inr ⟨_, rfl⟩

theorem normalize_ports_cases (v : Toml) :
    normalize_ports v = .error 1 ∨ ∃ ns, normalize_ports v = .ok ns := by
  cases v with
  | arr items => exact ports_of_cases items
  | str s => exact Or.inl rfl
  | int n => exact Or.inl rfl
  | bool b => exact Or.inl rfl
  | table l => exact Or.inl rfl

theorem parse_server_entry_cases (k : String) (entry : List (String × Toml)) :
    parse_server_entry k entry = .error 1 ∨ ∃ cfg, parse_server_entry k entry = .ok cfg := by
  unfold parse_server_entry
  split
  · exact Or.inl rfl
  · split
    · rename_i dv cv ev lv pv tv hq1 hq2 hq3 hq4 hq5 hq6
      rcases resolve_path_cases dv with h1 | ⟨d, h1⟩
      all_goals rw [h1]
      · exact Or.inl rfl
      rcases normalize_command_cases cv with h2 | ⟨cmd, h2⟩
      all_goals rw [h2]
      · exact Or.inl rfl
      rcases resolve_path_cases lv with h3 | ⟨lg, h3⟩
      all_goals rw [h3]
      · exact Or.inl rfl
      rcases resolve_path_cases pv with h4 | ⟨pf, h4⟩
      all_goals rw [h4]
      · exact Or.inl rfl
      rcases normalize_ports_cases tv with h5 | ⟨ports, h5⟩
      all_goals rw [h5]
      · exact Or.inl rfl
      · exact Or.inr ⟨_, rfl⟩
    · exact Or.inl rfl

theorem parse_entries_cases (l : List (String × Toml)) :
    parse_entries l = .error 1 ∨ ∃ cfgs, parse_entries l = .ok cfgs := by
  induction l with
  | nil => exact Or.inr ⟨[], rfl⟩
  | cons kv rest ih =>
    obtain ⟨k, v⟩ := kv
    cases v with
    | table e =>
      unfold parse_entries
      dsimp only
      rcases parse_server_entry_cases k e with h1 | ⟨cfg, h1⟩
      · rw [h1]; exact Or.inl rfl
      · rw [h1]
        rcases ih with h2 | ⟨cfgs, h2⟩
        · rw [h2]; exact Or.inl rfl
        · rw [h2]; exact Or.inr ⟨_, rfl⟩
    | str s => exact Or.inl rfl
    | int n => exact Or.inl rfl
    | bool b => exact Or.inl rfl
    | arr items => exact Or.inl rfl

theorem load_error_one (doc : Option (List (String × Toml))) (e : Nat)
    (h : load_server_configs doc = .error e) : e = 1 := by
  cases doc with
  | none => injection h with h1; exact h1.symm
  | some data =>
    unfold load_server_configs at h
    dsimp only at h
    cases hs : tlookup data "servers" with
    | none => rw [hs] at h; injection h with h1; exact h1.symm
    | some v =>
      rw [hs] at h
      cases v with
      | table entries =>
        dsimp only at h
        rcases parse_entries_cases entries with h2 | ⟨cfgs, h2⟩
        · rw [h2] at h; injection h with h1; exact h1.symm
        · rw [h2] at h
          dsimp only at h
          split at h
          · injection h with h1; exact h1.symm
          · cases h
      | str s => dsimp only at h; injection h with h1; exact h1.symm
      | int n => dsimp only at h; injection h with h1; exact h1.symm
      | bool b => dsimp only at h; injection h with h1; exact h1.symm
      | arr items => dsimp only at h; injection h with h1; exact h1.symm

theorem slookup_of_mem (l : List (String × ServerConfig)) (k : String)
    (h : k ∈ l.map Prod.fst) : ∃ v, slookup l k = some v := by
  induction l with
  | nil => simp at h
  | cons kv rest ih =>
    obtain ⟨k2, v2⟩ := kv
    by_cases hk : k2 = k
    · exact ⟨v2, by simp [slookup, hk]⟩
    · simp only [List.map_cons, List.mem_cons] at h
      rcases h with h | h
    -- h : k = k2 contradicts hk
      · exact absurd h.symm hk
      · obtain ⟨v, hv⟩ := ih h
        exact ⟨v, by simp [slookup, hk, hv]⟩

theorem resolve_targets_ok (servers : List (String × ServerConfig)) (target : String)
    (h : target ∈ servers.map Prod.fst ++ ["both"]) :
    ∃ cfgs, resolve_targets servers target = .ok cfgs := by
  by_cases hb : target = "both"
  · exact ⟨servers.map Prod.snd, by simp [resolve_targets, hb]⟩
  · have hm : target ∈ servers.map Prod.fst := by
      rcases List.mem_append.mp h with h1 | h1
      · exact h1
      · simp at h1; exact absurd h1 hb
    obtain ⟨v, hv⟩ := slookup_of_mem servers target hm
    exact ⟨[v], by simp [resolve_targets, hb, hv]⟩

theorem start_server_ok (env : Env) (cfg : ServerConfig) (bg : Bool) (fs : Fs)
    (hdir : env.dirExists cfg.directory = true) (hexe : env.onPath cfg.executable = true) :
    ∃ r, start_server env cfg bg fs = .ok r := by
  unfold start_server
  rw [if_neg (by simp [hdir]), if_neg (by simp [hexe])]
  cases read_pid fs cfg.pid_file with
  | none => exact ⟨_, rfl⟩
  | some p =>
    dsimp only
    by_cases hc : p ≠ 0 ∧ process_is_running env p = true
    · rw [if_pos hc]; exact ⟨_, rfl⟩
    · rw [if_neg hc]; exact ⟨_, rfl⟩

theorem show_status_nocrash (env : Env) (cfg : ServerConfig) (t : Int) (fs : Fs)
    (h : fs.get cfg.log_file ≠ .unreadable) :
    (show_status env cfg t fs).crashed = false := by
  unfold show_status
  cases ht : tail_log fs cfg.log_file t with
  | none => exact absurd ((tail_log_none_iff fs cfg.log_file t).mp ht) h
  | some logs => simp

theorem run_each_ok (step : Fs → ServerConfig → Except Nat Fs) :
    ∀ (cfgs : List ServerConfig) (fs : Fs),
      (∀ c ∈ cfgs, ∀ fsx : Fs, ∃ fs2, step fsx c = .ok fs2) →
      ∃ fs2, run_each step fs cfgs = .ok fs2 := by
  intro cfgs
  induction cfgs with
  | nil => exact fun fs _ => ⟨fs, rfl⟩
  | cons c rest ih =>
    intro fs h
    obtain ⟨fs2, h2⟩ := h c (by simp) fs
    obtain ⟨fs3, h3⟩ := ih fs2 (fun d hd fsx => h d (List.mem_cons_of_mem c hd) fsx)
    refine ⟨fs3, ?_⟩
    unfold run_each
    rw [h2]
    exact h3

theorem status_step_ok (env : Env) (t : Int) (fs : Fs) (c : ServerConfig)
    (h : fs.get c.log_file ≠ .unreadable) :
    status_step env t fs c = .ok fs := by
  unfold status_step
  dsimp only
  rw [show_status_nocrash env c t fs h]
  simp [show_status_fs_eq env c t fs]

theorem start_step_ok (env : Env) (b : Bool) (fs : Fs) (c : ServerConfig)
    (hdir : env.dirExists c.directory = true) (hexe : env.onPath c.executable = true) :
    ∃ fs2, start_step env b fs c = .ok fs2 := by
  obtain ⟨r, hr⟩ := start_server_ok env c b fs hdir hexe
  exact ⟨r.fs, by unfold start_step; rw [hr]⟩

theorem restart_step_ok (env : Env) (b : Bool) (fs : Fs) (c : ServerConfig)
    (hdir : env.dirExists c.directory = true) (hexe : env.onPath c.executable = true) :
    ∃ fs2, restart_step env b fs c = .ok fs2 := by
  obtain ⟨r, hr⟩ := start_server_ok env c b (stop_server env c fs).fs hdir hexe
  refine ⟨r.fs, ?_⟩
  unfold restart_step restart_server
  rw [hr]

theorem run_each_start_ok (env : Env) (b : Bool) (cfgs : List ServerConfig) (fs : Fs)
    (h : ∀ c ∈ cfgs, env.dirExists c.directory = true ∧ env.onPath c.executable = true) :
    ∃ fs2, run_each (start_step env b) fs cfgs = .ok fs2 :=
  run_each_ok (start_step env b) cfgs fs
    (fun c hc fsx => start_step_ok env b fsx c (h c hc).1 (h c hc).2)

theorem run_each_stop_ok (env : Env) (cfgs : List ServerConfig) (fs : Fs) :
    ∃ fs2, run_each (stop_step env) fs cfgs = .ok fs2 :=
  run_each_ok (stop_step env) cfgs fs
    (fun c _ fsx => ⟨(stop_server env c fsx).fs, rfl⟩)

theorem run_each_restart_ok (env : Env) (b : Bool) (cfgs : List ServerConfig) (fs : Fs)
    (h : ∀ c ∈ cfgs, env.dirExists c.directory = true ∧ env.onPath c.executable = true) :
    ∃ fs2, run_each (restart_step env b) fs cfgs = .ok fs2 :=
  run_each_ok (restart_step env b) cfgs fs
    (fun c hc fsx => restart_step_ok env b fsx c (h c hc).1 (h c hc).2)

theorem run_each_status_ok (env : Env) (t : Int) :
    ∀ (cfgs : List ServerConfig) (fs : Fs),
      (∀ c ∈ cfgs, fs.get c.log_file ≠ .unreadable) →
      run_each (status_step env t) fs cfgs = .ok fs := by
  intro cfgs
  induction cfgs with
  | nil => exact fun fs _ => rfl
  | cons c rest ih =>
    intro fs h
    unfold run_each
    rw [status_step_ok env t fs c (h c (by simp))]
    exact ih fs (fun d hd => h d (List.mem_cons_of_mem c hd))

/-- C8 amended: for every invocation whose action is recognized, whose
configuration loads, and whose targeted servers pass their per-server
preconditions (directory and executable present for start/restart, log
file readable for status), the process exits 0; configuration errors exit
1; but an unknown action is rejected by argparse choice validation with
exit code 2, not 1, and a failed per-server precondition aborts the whole
process with exit code 1 rather than being contained. -/
theorem script_exit_codes (env : Env) (doc : Option (List (String × Toml)))
    (action target : String) (bg : Bool) (tailN : Int) (fs : Fs) :
    (∀ servers, load_server_configs doc = .ok servers →
      action ∈ actionChoices →
      target ∈ servers.map Prod.fst ++ ["both"] →
      (∀ cfgs, resolve_targets servers target = .ok cfgs → ∀ c ∈ cfgs,
        ((action = "start" ∨ action = "restart") →
          env.dirExists c.directory = true ∧ env.onPath c.executable = true) ∧
        (action = "status" → fs.get c.log_file ≠ FileData.unreadable)) →
      script_exit env doc action target bg tailN fs = 0) ∧
    (∀ servers, load_server_configs doc = .ok servers → action ∉ actionChoices →
      script_exit env doc action target bg tailN fs = 2) ∧
    (∀ e, load_server_configs doc = .error e →
      script_exit env doc action target bg tailN fs = 1) := by
  refine ⟨?_, ?_, ?_⟩
  · intro servers hld hact htgt hpre
    have hact4 : action = "start" ∨ action = "stop" ∨ action = "restart" ∨
        action = "status" := by
      simpa [actionChoices] using hact
    have hparse : parse_args (servers.map Prod.fst) action target bg tailN =
        .ok ⟨action, target, bg, tailN⟩ := by
      unfold parse_args
      rw [if_pos hact, if_pos htgt]
    obtain ⟨cfgs, hres⟩ := resolve_targets_ok servers target htgt
    have hP := hpre cfgs hres
    have hmm : ∃ fs2, main_model env servers action target bg tailN fs = .ok (0, fs2) := by
      unfold main_model
      rw [hparse]
      dsimp only
      rw [hres]
      dsimp only
      rcases hact4 with rfl | rfl | rfl | rfl
      · rw [if_pos rfl]
        obtain ⟨fs2, h2⟩ := run_each_start_ok env _ cfgs fs
          (fun c hc => (hP c hc).1 (Or.inl rfl))
        rw [h2]
        exact ⟨fs2, rfl⟩
      · rw [if_neg (by decide), if_pos rfl]
        obtain ⟨fs2, h2⟩ := run_each_stop_ok env cfgs fs
        rw [h2]
        exact ⟨fs2, rfl⟩
      · rw [if_neg (by decide), if_neg (by decide), if_pos rfl]
        obtain ⟨fs2, h2⟩ := run_each_restart_ok env _ cfgs fs
          (fun c hc => (hP c hc).1 (Or.inr rfl))
        rw [h2]
        exact ⟨fs2, rfl⟩
      · rw [if_neg (by decide), if_neg (by decide), if_neg (by decide), if_pos rfl]
        rw [run_each_status_ok env tailN cfgs fs (fun c hc => (hP c hc).2 rfl)]
        exact ⟨fs, rfl⟩
    obtain ⟨fs2, hmm2⟩ := hmm
    unfold script_exit
    rw [hld]
    dsimp only
    rw [hmm2]
  · intro servers hld hact
    have hparse2 : parse_args (servers.map Prod.fst) action target bg tailN = .error 2 := by
      unfold parse_args
      rw [if_neg hact]
    have hmm : main_model env servers action target bg tailN fs = .error 2 := by
      unfold main_model
      rw [hparse2]
    unfold script_exit
    rw [hld]
    dsimp only
    rw [hmm]
    rfl
  · intro e he
    have h1 := load_error_one doc e he
    subst h1
    unfold script_exit
    rw [he]
    rfl

theorem script_exit_codes_witness :
    load_server_configs docB = .ok [("backend", cfgB)] ∧
    script_exit baseEnv docB "status" "both" false 10 fs0 = 0 := by
  have hld : load_server_configs docB = .ok [("backend", cfgB)] := by rfl
  refine ⟨hld, ?_⟩
  refine (script_exit_codes baseEnv docB "status" "both" false 10 fs0).1
    [("backend", cfgB)] hld (by decide) (by decide) ?_
  intro cfgs hres c hc
  have hcfgs : cfgs = [cfgB] := by
    have h0 : resolve_targets [("backend", cfgB)] "both" = .ok [cfgB] := by rfl
    rw [h0] at hres
    injection hres with h1
    exact h1.symm
  subst hcfgs
  simp only [List.mem_singleton] at hc
  subst hc
  constructor
  · intro hsr
    rcases hsr with h | h
    · exact absurd h (by decide)
    · exact absurd h (by decide)
  · intro _
    decide

/-- C8 counterexample: the claim's exit codes fail on the code twice.  An
unknown action ("frobnicate") makes argparse reject the invocation with
exit code 2, where the claim requires 1.  And with a loading
configuration and the recognized action "start" but a missing working
directory — an individual per-server failure — the process exits 1,
where the claim requires 0. -/
theorem script_exit_counterexample :
    script_exit baseEnv docB "frobnicate" "both" false 10 fs0 = 2 ∧
    script_exit { baseEnv with dirExists := fun _ => false } docB "start" "both" false 10
      fs0 = 1 :=
  ⟨by decide, by decide⟩

end ServerManager
